import Mathlib

set_option maxRecDepth 10000
set_option maxHeartbeats 1000000

/-!
Verification of the PCIe ATU / RTL8125 driver (`src/pcie_test_impl.c`) against
its natural-language specification.

Shallow embedding conventions:
* Machine integers are `Nat` with explicit `% 2^32` / `% 2^64` where C
  truncation or wraparound occurs.
* MMIO register blocks are modelled as record state; the value read back from
  the ATU `ctrl2` register during the enable-poll loop is hardware-controlled,
  so it is supplied by an environment oracle `env : Nat → Nat` giving the
  32-bit value observed by the k-th poll.
* The device configuration space is a function `Nat → Nat` from register
  offset to stored 32-bit value; device-side write semantics (which bits a
  config-space write actually latches) are a parameter `wsem`.
* Descriptor-ring status readback after a DMA hand-off is likewise
  hardware-controlled and supplied by an oracle; the cache-invalidate before
  each poll is modelled as the point where the fresh hardware value becomes
  visible, and reads between invalidates see the last observed (cached) value.
-/

/-! ## ATU region registers (`dw_pcie_setup_atu`, lines 287-398) -/

/-- One ATU region's register block (unroll mode, §6 of the spec):
ctrl1 @0x00, ctrl2 @0x04, lower/upper base @0x08/0x0C, lower/upper limit
@0x10/0x14, lower/upper target @0x18/0x1C. -/
structure AtuRegs where
  lowerBase : Nat
  upperBase : Nat
  lowerLimit : Nat
  upperLimit : Nat
  lowerTarget : Nat
  upperTarget : Nat
  ctrl1 : Nat
  ctrl2 : Nat
deriving DecidableEq

/-- The register values `dw_pcie_setup_atu` writes to the region block, in
source order: lower/upper base = split `cpu_addr`; lower/upper limit = split
`cpu_addr + size - 1` (uint64 arithmetic, so `+ 2^64 - 1` then `% 2^64`);
lower/upper target = split `pci_addr`; ctrl1 = `type`; ctrl2 = the enable
bit `PCIE_ATU_ENABLE = 1 <<< 31`. -/
def atuProgram (ty cpuAddr pciAddr size : Nat) : AtuRegs :=
  let limit := (cpuAddr + size + (2 ^ 64 - 1)) % 2 ^ 64
  { lowerBase := cpuAddr % 2 ^ 32
    upperBase := cpuAddr / 2 ^ 32 % 2 ^ 32
    lowerLimit := limit % 2 ^ 32
    upperLimit := limit / 2 ^ 32 % 2 ^ 32
    lowerTarget := pciAddr % 2 ^ 32
    upperTarget := pciAddr / 2 ^ 32 % 2 ^ 32
    ctrl1 := ty % 2 ^ 32
    ctrl2 := 2 ^ 31 }

/-- The `while (retries--)` poll loop of `dw_pcie_setup_atu`: read `ctrl2`
(oracle value `env k` at the k-th read), return the index of the first read
whose bit 31 (`PCIE_ATU_ENABLE`) is set, or `none` once the retry budget is
exhausted. -/
def atuPollEnable (env : Nat → Nat) : Nat → Nat → Option Nat
  | 0, _ => none
  | fuel + 1, k => if (env k).testBit 31 then some k else atuPollEnable env fuel (k + 1)

/-- Result of `dw_pcie_setup_atu`: final region register contents, the C
return value, the number of `ctrl2` polls performed, and the total busy-wait
time in microseconds (`udelay(1000)` after each failed poll). -/
structure AtuOut where
  regs : AtuRegs
  ret : Int
  polls : Nat
  delayUs : Nat
deriving DecidableEq

/-- `dw_pcie_setup_atu` (lines 287-398): program the eight region registers,
then poll `ctrl2` up to `retries = 5` times for the enable bit, with
`udelay(1000)` after each failed poll; return 0 on success, -1 on timeout.
The `dbi_base`/`region_index` arguments of the C function only select which
register block is addressed and are handled by the caller of this model. -/
def dw_pcie_setup_atu (env : Nat → Nat) (ty cpuAddr pciAddr size : Nat) : AtuOut :=
  let regs := atuProgram ty cpuAddr pciAddr size
  match atuPollEnable env 5 0 with
  | some k => ⟨regs, 0, k + 1, 1000 * k⟩
  | none => ⟨regs, -1, 5, 5000⟩

/-! ## Configuration-space accessors (`pcie_config_read32` / `pcie_config_write32`,
lines 406-487) -/

/-- Machine state seen by the configuration-space accessors: the swing
translation region's register block (ATU region index 1) and the device's
configuration space, a map from register offset to the stored 32-bit value.
The raw access at `cfg_base + offset` reaches device offset `offset` through
the config window `[0xf3000000, +1MB) → bus 0` that the accessor programs. -/
structure Mach where
  atu1 : AtuRegs
  cfg : Nat → Nat

/-- A raw configuration-space access performed through the swing window. -/
inductive CfgAcc
  | rd (off val : Nat)
  | wr (off val : Nat)
deriving DecidableEq

/-- Run `dw_pcie_setup_atu` on ATU region 1 and store the programmed
registers, returning the C return value. -/
def atuSetup1 (env : Nat → Nat) (ty cpuAddr pciAddr size : Nat) (m : Mach) :
    Int × Mach :=
  let out := dw_pcie_setup_atu env ty cpuAddr pciAddr size
  (out.ret, { m with atu1 := out.regs })

/-- Output of `pcie_config_read32`: the returned 32-bit value, the final
machine state, and the raw config-space accesses performed. -/
structure CfgROut where
  val : Nat
  m : Mach
  acc : List CfgAcc

/-- Output of `pcie_config_write32`: the final machine state, the raw
config-space accesses performed, and the value returned to the caller —
the C function returns `void`, so that channel is `Unit`. -/
structure CfgWOut where
  m : Mach
  acc : List CfgAcc
  ret : Unit

/-- `pcie_config_read32` (lines 406-445): map ATU region 1 to config type
(`PCIE_ATU_TYPE_CFG0 = 4`, window `0xf3000000 → 0`, 1 MB); on setup failure
return the sentinel `0xFFFFFFFF` without any raw access; otherwise read
device offset `offset`, then, when `restore_memory` is set and `bar_phys` is
nonzero, map region 1 back to memory type (`0x9c0100000 → bar_phys`, 64 KB).
`env i` is the ctrl2-readback oracle of the i-th `dw_pcie_setup_atu` call
this accessor makes. -/
def pcie_config_read32 (env : Nat → Nat → Nat) (bar_phys offset : Nat)
    (restore_memory : Bool) (m : Mach) : CfgROut :=
  let r1 := atuSetup1 (env 0) 4 0xf3000000 0 0x100000 m
  if r1.1 ≠ 0 then ⟨0xFFFFFFFF, r1.2, []⟩
  else
    let v := r1.2.cfg offset
    let m2 := if restore_memory ∧ bar_phys ≠ 0 then
        (atuSetup1 (env 1) 0 0x9c0100000 bar_phys 0x10000 r1.2).2
      else r1.2
    ⟨v, m2, [CfgAcc.rd offset v]⟩

/-- `pcie_config_write32` (lines 450-487): same window dance as the read;
on setup failure the function returns with no raw access performed (the C
function is `void`, so nothing is reported to the caller); otherwise the
device stores `wsem offset value` at `offset`, where `wsem` is the
device-side write semantics (which bits the device latches). -/
def pcie_config_write32 (wsem : Nat → Nat → Nat) (env : Nat → Nat → Nat)
    (bar_phys offset value : Nat) (restore_memory : Bool) (m : Mach) : CfgWOut :=
  let r1 := atuSetup1 (env 0) 4 0xf3000000 0 0x100000 m
  if r1.1 ≠ 0 then ⟨r1.2, [], ()⟩
  else
    let m2 : Mach := { r1.2 with cfg := Function.update r1.2.cfg offset (wsem offset value) }
    let m3 := if restore_memory ∧ bar_phys ≠ 0 then
        (atuSetup1 (env 1) 0 0x9c0100000 bar_phys 0x10000 m2).2
      else m2
    ⟨m3, [CfgAcc.wr offset value], ()⟩

/-! ## Device enable and BAR sizing (`pcie_enable_device`, lines 535-578;
`pcie_get_bar_info`, lines 586-635) -/

/-- The command/status word `pcie_enable_device` writes back (lines 552-558):
low half = original command with `PCIE_CMD_MEM_ENABLE (bit 1)`,
`PCIE_CMD_BUS_MASTER (bit 2)` and `PCIE_CMD_IO_ENABLE (bit 0)` set and
`PCIE_CMD_INT_DISABLE (bit 10)` cleared (`&&& 0xFBFF` is the uint16
`&= ~(1 << 10)`); high half = the original status half-word. -/
def enableCmdWord (v : Nat) : Nat :=
  ((v / 2 ^ 16 % 2 ^ 16) <<< 16) ||| ((((v % 2 ^ 16 ||| 2) ||| 4) ||| 1) &&& 0xFBFF)

/-- `pcie_enable_device` (lines 535-578): read the command/status word at
offset 0x04, write back `enableCmdWord` of it, read the command register
back (restoring the memory window this time), and fail with -1 exactly when
the read-back memory-space-enable bit (bit 1) is clear. `E c` is the
ctrl2-readback oracle family of the c-th `dw_pcie_setup_atu` call. -/
def pcie_enable_device (wsem : Nat → Nat → Nat) (E : Nat → Nat → Nat)
    (bar_phys : Nat) (m : Mach) : Int × Mach × List CfgAcc :=
  let o1 := pcie_config_read32 E bar_phys 0x04 false m
  let cmd_reg := enableCmdWord o1.val
  let o2 := pcie_config_write32 wsem (fun i => E (1 + i)) bar_phys 0x04 cmd_reg false o1.m
  let o3 := pcie_config_read32 (fun i => E (2 + i)) bar_phys 0x04 true o2.m
  let cmd_val := o3.val % 2 ^ 16
  (if cmd_val &&& 2 = 0 then (-1 : Int) else 0, o3.m, o1.acc ++ o2.acc ++ o3.acc)

/-- Result of `pcie_get_bar_info`: C return value, `*bar_addr`, `*bar_size`,
final machine state and raw accesses. -/
structure BarOut where
  ret : Int
  barAddr : Nat
  barSize : Nat
  m : Mach
  acc : List CfgAcc

/-- `pcie_get_bar_info` (lines 586-635): read the original BAR value, write
all-ones, read back, restore the original value, then decode: I/O BAR when
bit 0 of the readback is set (`size = (~(readback & 0xFFFFFFFC)) + 1`, in
uint32, written here as `2^32 - 1 - mask + 1 mod 2^32`), else memory BAR
with mask `0xFFFFFFF0`; a memory BAR with `(orig & 0x6) == 0x4` is 64-bit
and its upper half is read from the next BAR slot. All config accesses use
`bar_phys = 0` and `restore_memory = false`, as in the source. -/
def pcie_get_bar_info (wsem : Nat → Nat → Nat) (E : Nat → Nat → Nat)
    (bar_num : Nat) (m : Mach) : BarOut :=
  let bar_offset := 0x10 + bar_num * 4
  let o1 := pcie_config_read32 E 0 bar_offset false m
  let bar_orig := o1.val
  let o2 := pcie_config_write32 wsem (fun i => E (1 + i)) 0 bar_offset 0xFFFFFFFF false o1.m
  let o3 := pcie_config_read32 (fun i => E (2 + i)) 0 bar_offset false o2.m
  let bar_val := o3.val
  let o4 := pcie_config_write32 wsem (fun i => E (3 + i)) 0 bar_offset bar_orig false o3.m
  let acc4 := o1.acc ++ o2.acc ++ o3.acc ++ o4.acc
  if bar_val &&& 0x1 ≠ 0 then
    let size_mask := bar_val &&& 0xFFFFFFFC
    ⟨0, bar_orig &&& 0xFFFFFFFC, (2 ^ 32 - 1 - size_mask + 1) % 2 ^ 32, o4.m, acc4⟩
  else
    let size_mask := bar_val &&& 0xFFFFFFF0
    let size := (2 ^ 32 - 1 - size_mask + 1) % 2 ^ 32
    let addr0 := bar_orig &&& 0xFFFFFFF0
    if bar_orig &&& 0x6 = 0x4 then
      let o5 := pcie_config_read32 (fun i => E (4 + i)) 0 (bar_offset + 4) false o4.m
      ⟨0, addr0 ||| o5.val <<< 32, size, o5.m, acc4 ++ o5.acc⟩
    else
      ⟨0, addr0, size, o4.m, acc4⟩

/-- Is this raw access a write? -/
def CfgAcc.isWr : CfgAcc → Bool
  | .wr _ _ => true
  | .rd _ _ => false

/-- The last raw config-space write in an access trace (first write of the
reversed trace). -/
def lastWrite (l : List CfgAcc) : Option CfgAcc := l.reverse.find? CfgAcc.isWr

/-! ## RTL8125 descriptor rings (`rtl8125_send_packet`, lines 765-826;
`rtl8125_recv_packet`, lines 831-902) -/

/-- One 16-byte descriptor entry (`rtl_desc_t`, lines 142-148). -/
structure RtlDesc where
  status : Nat
  vlan_tag : Nat
  buf_addr_lo : Nat
  buf_addr_hi : Nat
deriving DecidableEq

/-- Driver-visible ring state: TX/RX descriptor rings (`tx_ring`/`rx_ring`),
the per-slot data buffers (`tx_buffers`/`rx_buffers`, byte index → byte),
and the rotating indices `tx_idx`/`rx_idx`. Descriptor/buffer contents are
what the driver last wrote (or DMA last delivered); fresh hardware updates
to a polled status word arrive through the oracle at each cache
invalidate. -/
structure RtlState where
  txRing : Nat → RtlDesc
  rxRing : Nat → RtlDesc
  txBufs : Nat → Nat → Nat
  rxBufs : Nat → Nat → Nat
  txIdx : Nat
  rxIdx : Nat

/-- Hardware-visible side effects of a send: posting the descriptor status
word and hitting the TX-poll doorbell register. -/
inductive RtlEv
  | descStatus (slot val : Nat)
  | txPollWrite (val : Nat)
deriving DecidableEq

/-- The ownership-bit poll loop shared by send and receive (lines 807-816 and
844-853): at the k-th iteration, invalidate the descriptor cache line and
observe status `env k`; break as soon as `DESC_OWN` (bit 31) is clear,
otherwise `udelay(10)` and retry while fuel remains. Returns the last status
value observed (`cur` when the loop body never ran — the cached value the
subsequent check re-reads) and the number of `udelay(10)` calls. -/
def descPoll (env : Nat → Nat) : Nat → Nat → Nat → Nat × Nat
  | 0, _, cur => (cur, 0)
  | fuel + 1, k, _ =>
    let v := env k
    if v.testBit 31 = false then (v, 0)
    else
      let r := descPoll env fuel (k + 1) v
      (r.1, r.2 + 1)

/-- `pad_len` of `rtl8125_send_packet` (lines 781-785): zero-pad short
frames to the 60-byte minimum. -/
def txPad (len : Nat) : Nat := if len < 60 then 60 else len

/-- The status word posted to the TX descriptor (line 795):
`DESC_OWN | DESC_FS | DESC_LS | pad_len`. -/
def txPosted (len : Nat) : Nat :=
  (0x80000000 ||| 0x20000000 ||| 0x10000000) ||| txPad len

/-- The TX buffer content after the copy and zero-padding steps (lines
778-784): `len` payload bytes, zeros up to `txPad len`, the rest
untouched. -/
def txFill (data : Nat → Nat) (len : Nat) (old : Nat → Nat) : Nat → Nat := fun i =>
  if i < len then data i % 256
  else if i < txPad len then 0
  else old i

/-- Result of `rtl8125_send_packet`. -/
structure SendOut where
  ret : Int
  s : RtlState
  evs : List RtlEv
  delayUs : Nat

/-- `rtl8125_send_packet` (lines 765-826): reject oversize frames before any
ring or hardware interaction; otherwise copy `len` payload bytes into the
current TX buffer, zero-pad to 60 bytes if shorter, post
`txPosted len` to the descriptor, ring the TX-poll doorbell, poll for the
ownership bit to clear (10000 attempts, `udelay(10)` apart), and on success
advance `tx_idx` modulo `NUM_TX_DESC = 4`. `env k` is the status value DMA
hardware exposes at the k-th descriptor-cache invalidate. -/
def rtl8125_send_packet (env : Nat → Nat) (data : Nat → Nat) (len : Nat)
    (s : RtlState) : SendOut :=
  if len > 2048 then ⟨-1, s, [], 0⟩
  else
    let s1 : RtlState := { s with
      txBufs := Function.update s.txBufs s.txIdx (txFill data len (s.txBufs s.txIdx)),
      txRing := Function.update s.txRing s.txIdx
        { s.txRing s.txIdx with status := txPosted len } }
    let evs := [RtlEv.descStatus s.txIdx (txPosted len), RtlEv.txPollWrite 1]
    let r := descPoll env 10000 0 (txPosted len)
    if (r.1).testBit 31 then ⟨-1, s1, evs, 10 * r.2⟩
    else ⟨0, { s1 with txIdx := (s.txIdx + 1) % 4 }, evs, 10 * r.2⟩

/-- Result of `rtl8125_recv_packet`: C return value, ring state, the
caller's buffer after the call, the value stored through `*len` (`none`
when the function never writes it), and the accumulated `udelay`
microseconds. -/
structure RecvOut where
  ret : Int
  s : RtlState
  buf : Nat → Nat
  lenOut : Option Nat
  delayUs : Nat

/-- The receive poll (lines 844-853): `timeout = timeout_ms * 100` in
uint32 arithmetic, starting from the cached status of the current RX
slot. -/
def rxPoll (env : Nat → Nat) (timeout_ms : Nat) (s : RtlState) : Nat × Nat :=
  descPoll env (timeout_ms * 100 % 2 ^ 32) 0 (s.rxRing s.rxIdx).status

/-- Descriptor re-arm (lines 886-895): status back to
`DESC_OWN (| DESC_EOR on the last slot) + RX_BUF_SIZE`, buffer address
rewritten, and `rx_idx` advanced modulo `NUM_RX_DESC = 4`. -/
def rxReinit (s : RtlState) : RtlState :=
  let newStatus := if s.rxIdx = 4 - 1 then (0x80000000 ||| 0x40000000) + 2048
    else 0x80000000 + 2048
  { s with
    rxRing := Function.update s.rxRing s.rxIdx
      { s.rxRing s.rxIdx with
        status := newStatus
        buf_addr_lo := 0x50400000 + s.rxIdx * 2048
        buf_addr_hi := 0 },
    rxIdx := (s.rxIdx + 1) % 4 }

/-- Packet length extraction (lines 871-873): low 14 bits of the status
word minus the 4 FCS bytes in uint32 arithmetic, clamped to
`RX_BUF_SIZE = 2048`. -/
def pktLenOf (st : Nat) : Nat :=
  let p := ((st &&& 0x3FFF) + 2 ^ 32 - 4) % 2 ^ 32
  if p > 2048 then 2048 else p

/-- `rtl8125_recv_packet` (lines 831-902): poll the current RX slot until
its ownership bit clears or the timeout budget runs out; on timeout return
-1 touching nothing; on ownership with the `RxRES` error flag (bit 21) set,
skip extraction but still re-arm and return 0; otherwise copy `pktLenOf`
bytes out of the slot buffer, store the length through `*len`, re-arm, and
return 0. -/
def rtl8125_recv_packet (env : Nat → Nat) (buffer : Nat → Nat)
    (timeout_ms : Nat) (s : RtlState) : RecvOut :=
  let stF := (rxPoll env timeout_ms s).1
  let d := (rxPoll env timeout_ms s).2
  if stF.testBit 31 then ⟨-1, s, buffer, none, 10 * d⟩
  else if stF.testBit 21 then ⟨0, rxReinit s, buffer, none, 10 * d⟩
  else
    let pkt_len := pktLenOf stF
    let buf1 : Nat → Nat := fun i => if i < pkt_len then s.rxBufs s.rxIdx i else buffer i
    ⟨0, rxReinit s, buf1, some pkt_len, 10 * d⟩

/-- A concrete ring state for witnesses: descriptors exactly as
`rtl8125_init` programs them (lines 699-719) — every TX slot host-owned
with the end-of-ring flag on the last, every RX slot device-owned with the
full buffer size and the end-of-ring flag on the last — with all data
buffers zeroed (the C code leaves their initial contents unspecified). -/
def rtlInitState : RtlState :=
  { txRing := fun i =>
      { status := if i = 4 - 1 then 0x40000000 else 0
        vlan_tag := 0
        buf_addr_lo := 0x50300000 + i * 2048
        buf_addr_hi := 0 }
    rxRing := fun i =>
      { status := if i = 4 - 1 then (0x80000000 ||| 2048) ||| 0x40000000
          else 0x80000000 ||| 2048
        vlan_tag := 0
        buf_addr_lo := 0x50400000 + i * 2048
        buf_addr_hi := 0 }
    txBufs := fun _ _ => 0
    rxBufs := fun _ _ => 0
    txIdx := 0
    rxIdx := 0 }

/-- A concrete machine for witnesses: swing region as left by some previous
programming, all config-space registers reading zero. -/
def mach0 : Mach := ⟨atuProgram 0 0 0 1, fun _ => 0⟩


/-! ## Helper lemmas about the ATU poll loop -/

theorem atuPollEnable_eq_some {env : Nat → Nat} {fuel k j : Nat}
    (h : atuPollEnable env fuel k = some j) :
    k ≤ j ∧ j < k + fuel ∧ (env j).testBit 31 = true := by
  induction fuel generalizing k with
  | zero => simp [atuPollEnable] at h
  | succ n ih =>
    rw [atuPollEnable] at h
    by_cases hb : (env k).testBit 31
    · simp [hb] at h
      subst h
      exact ⟨le_refl _, by omega, hb⟩
    · simp [hb] at h
      obtain ⟨h1, h2, h3⟩ := ih h
      exact ⟨by omega, by omega, h3⟩

theorem atuPollEnable_eq_none {env : Nat → Nat} (h : ∀ k, (env k).testBit 31 = false)
    (fuel k : Nat) : atuPollEnable env fuel k = none := by
  induction fuel generalizing k with
  | zero => rfl
  | succ n ih => rw [atuPollEnable]; simp [h, ih]

theorem atuPollEnable_first {env : Nat → Nat} {k : Nat} (fuel : Nat)
    (h : (env k).testBit 31 = true) :
    atuPollEnable env (fuel + 1) k = some k := by
  rw [atuPollEnable]; simp [h]

/-- Recombination of a 32-bit split of a 64-bit value. -/
theorem split64_recombine {x : Nat} (h : x < 2 ^ 64) :
    x % 2 ^ 32 + 2 ^ 32 * (x / 2 ^ 32 % 2 ^ 32) = x := by
  have hd : x / 2 ^ 32 < 2 ^ 32 := by
    apply Nat.div_lt_of_lt_mul
    calc x < 2 ^ 64 := h
    _ = 2 ^ 32 * 2 ^ 32 := by norm_num
  rw [Nat.mod_eq_of_lt hd]
  exact Nat.mod_add_div x (2 ^ 32)

/-! ## Helper lemmas: accessor behaviour under a succeeding / failing swing
reprogram -/

theorem setup_atu_regs (env : Nat → Nat) (ty cpuAddr pciAddr size : Nat) :
    (dw_pcie_setup_atu env ty cpuAddr pciAddr size).regs =
      atuProgram ty cpuAddr pciAddr size := by
  rw [dw_pcie_setup_atu]
  cases atuPollEnable env 5 0 <;> rfl

theorem setup_atu_ret_ok {env : Nat → Nat} (h : (env 0).testBit 31 = true)
    (ty cpuAddr pciAddr size : Nat) :
    dw_pcie_setup_atu env ty cpuAddr pciAddr size =
      ⟨atuProgram ty cpuAddr pciAddr size, 0, 1, 0⟩ := by
  rw [dw_pcie_setup_atu, atuPollEnable_first 4 h]

theorem setup_atu_ret_fail {env : Nat → Nat} (h : ∀ k, (env k).testBit 31 = false)
    (ty cpuAddr pciAddr size : Nat) :
    dw_pcie_setup_atu env ty cpuAddr pciAddr size =
      ⟨atuProgram ty cpuAddr pciAddr size, -1, 5, 5000⟩ := by
  rw [dw_pcie_setup_atu, atuPollEnable_eq_none h]

theorem cfg_read32_ok {env : Nat → Nat → Nat} (h : (env 0 0).testBit 31 = true)
    (bar_phys offset : Nat) (restore_memory : Bool) (m : Mach) :
    pcie_config_read32 env bar_phys offset restore_memory m =
      ⟨m.cfg offset,
        if restore_memory ∧ bar_phys ≠ 0 then
          { m with atu1 := atuProgram 0 0x9c0100000 bar_phys 0x10000 }
        else { m with atu1 := atuProgram 4 0xf3000000 0 0x100000 },
        [CfgAcc.rd offset (m.cfg offset)]⟩ := by
  rw [pcie_config_read32]
  simp only [atuSetup1, setup_atu_ret_ok h]
  by_cases hr : restore_memory ∧ bar_phys ≠ 0 <;>
    simp [hr, atuSetup1, setup_atu_regs]

theorem cfg_read32_fail {env : Nat → Nat → Nat}
    (h : ∀ k, (env 0 k).testBit 31 = false)
    (bar_phys offset : Nat) (restore_memory : Bool) (m : Mach) :
    pcie_config_read32 env bar_phys offset restore_memory m =
      ⟨0xFFFFFFFF, { m with atu1 := atuProgram 4 0xf3000000 0 0x100000 }, []⟩ := by
  rw [pcie_config_read32]
  simp [atuSetup1, setup_atu_ret_fail h]

theorem cfg_write32_ok {env : Nat → Nat → Nat} (h : (env 0 0).testBit 31 = true)
    (wsem : Nat → Nat → Nat) (bar_phys offset value : Nat)
    (restore_memory : Bool) (m : Mach) :
    pcie_config_write32 wsem env bar_phys offset value restore_memory m =
      ⟨if restore_memory ∧ bar_phys ≠ 0 then
          { atu1 := atuProgram 0 0x9c0100000 bar_phys 0x10000,
            cfg := Function.update m.cfg offset (wsem offset value) }
        else
          { atu1 := atuProgram 4 0xf3000000 0 0x100000,
            cfg := Function.update m.cfg offset (wsem offset value) },
        [CfgAcc.wr offset value], ()⟩ := by
  rw [pcie_config_write32]
  simp only [atuSetup1, setup_atu_ret_ok h]
  by_cases hr : restore_memory ∧ bar_phys ≠ 0 <;>
    simp [hr, atuSetup1, setup_atu_regs]

theorem cfg_write32_fail {env : Nat → Nat → Nat}
    (h : ∀ k, (env 0 k).testBit 31 = false)
    (wsem : Nat → Nat → Nat) (bar_phys offset value : Nat)
    (restore_memory : Bool) (m : Mach) :
    pcie_config_write32 wsem env bar_phys offset value restore_memory m =
      ⟨{ m with atu1 := atuProgram 4 0xf3000000 0 0x100000 }, [], ()⟩ := by
  rw [pcie_config_write32]
  simp [atuSetup1, setup_atu_ret_fail h]

/-! ## Claims C1 and C2 -/

/-- Claim C1: For every valid `(host_addr, bus_addr, size)`, after
`dw_pcie_setup_atu` returns success for a region, the region's base registers
hold `host_addr` (split lower/upper 32 bits), its limit registers hold
`host_addr + size - 1`, its target registers hold `bus_addr`, its control-1
register holds the transaction type, and the enable bit of control-2 reads
back set (at one of the at most five polls and in the enable bit the driver
wrote). -/
theorem C1_setup_atu_success (env : Nat → Nat) (ty cpuAddr pciAddr size : Nat)
    (hty : ty < 2 ^ 32) (hcpu : cpuAddr < 2 ^ 64) (hpci : pciAddr < 2 ^ 64)
    (hsz : 1 ≤ size) (hfit : cpuAddr + size ≤ 2 ^ 64)
    (hret : (dw_pcie_setup_atu env ty cpuAddr pciAddr size).ret = 0) :
    (dw_pcie_setup_atu env ty cpuAddr pciAddr size).regs.lowerBase +
        2 ^ 32 * (dw_pcie_setup_atu env ty cpuAddr pciAddr size).regs.upperBase = cpuAddr ∧
    (dw_pcie_setup_atu env ty cpuAddr pciAddr size).regs.lowerLimit +
        2 ^ 32 * (dw_pcie_setup_atu env ty cpuAddr pciAddr size).regs.upperLimit =
      cpuAddr + size - 1 ∧
    (dw_pcie_setup_atu env ty cpuAddr pciAddr size).regs.lowerTarget +
        2 ^ 32 * (dw_pcie_setup_atu env ty cpuAddr pciAddr size).regs.upperTarget = pciAddr ∧
    (dw_pcie_setup_atu env ty cpuAddr pciAddr size).regs.ctrl1 = ty ∧
    (dw_pcie_setup_atu env ty cpuAddr pciAddr size).regs.ctrl2 = 2 ^ 31 ∧
    ∃ k, k < 5 ∧ (env k).testBit 31 = true := by
  have hlim : (cpuAddr + size + (2 ^ 64 - 1)) % 2 ^ 64 = cpuAddr + size - 1 := by
    have he : cpuAddr + size + (2 ^ 64 - 1) = (cpuAddr + size - 1) + 2 ^ 64 := by omega
    rw [he, Nat.add_mod_right, Nat.mod_eq_of_lt (by omega)]
  have hpoll : ∃ j, atuPollEnable env 5 0 = some j := by
    by_contra hc
    push_neg at hc
    have hn : atuPollEnable env 5 0 = none := by
      cases hh : atuPollEnable env 5 0 with
      | none => rfl
      | some j => exact absurd hh (hc j)
    rw [dw_pcie_setup_atu, hn] at hret
    simp at hret
  obtain ⟨j, hj⟩ := hpoll
  obtain ⟨_, hj5, hjbit⟩ := atuPollEnable_eq_some hj
  refine ⟨?_, ?_, ?_, ?_, ?_, j, by omega, hjbit⟩ <;>
    simp only [dw_pcie_setup_atu, hj, atuProgram]
  · exact split64_recombine hcpu
  · rw [hlim]; exact split64_recombine (by omega)
  · exact split64_recombine hpci
  · exact Nat.mod_eq_of_lt hty

/-- Witness for C1 at the concrete configuration-window triple the driver
uses, with hardware that reports enabled at the first poll. -/
theorem C1_setup_atu_success_witness :
    ((4 : Nat) < 2 ^ 32 ∧ (0xf3000000 : Nat) < 2 ^ 64 ∧ (0 : Nat) < 2 ^ 64 ∧
      (1 : Nat) ≤ 0x100000 ∧ (0xf3000000 : Nat) + 0x100000 ≤ 2 ^ 64 ∧
      (dw_pcie_setup_atu (fun _ => 2 ^ 31) 4 0xf3000000 0 0x100000).ret = 0) ∧
    ((dw_pcie_setup_atu (fun _ => 2 ^ 31) 4 0xf3000000 0 0x100000).regs.lowerBase +
        2 ^ 32 * (dw_pcie_setup_atu (fun _ => 2 ^ 31) 4 0xf3000000 0 0x100000).regs.upperBase =
      0xf3000000 ∧
    (dw_pcie_setup_atu (fun _ => 2 ^ 31) 4 0xf3000000 0 0x100000).regs.lowerLimit +
        2 ^ 32 * (dw_pcie_setup_atu (fun _ => 2 ^ 31) 4 0xf3000000 0 0x100000).regs.upperLimit =
      0xf3000000 + 0x100000 - 1 ∧
    (dw_pcie_setup_atu (fun _ => 2 ^ 31) 4 0xf3000000 0 0x100000).regs.lowerTarget +
        2 ^ 32 * (dw_pcie_setup_atu (fun _ => 2 ^ 31) 4 0xf3000000 0 0x100000).regs.upperTarget =
      0 ∧
    (dw_pcie_setup_atu (fun _ => 2 ^ 31) 4 0xf3000000 0 0x100000).regs.ctrl1 = 4 ∧
    (dw_pcie_setup_atu (fun _ => 2 ^ 31) 4 0xf3000000 0 0x100000).regs.ctrl2 = 2 ^ 31 ∧
    ∃ k, k < 5 ∧ ((fun _ => 2 ^ 31 : Nat → Nat) k).testBit 31 = true) :=
  ⟨⟨by decide, by decide, by decide, by decide, by decide, by decide⟩,
    C1_setup_atu_success (fun _ => 2 ^ 31) 4 0xf3000000 0 0x100000
      (by decide) (by decide) (by decide) (by decide) (by decide) (by decide)⟩

/-- Claim C2: If the region's control-2 register never reads back with the
enable bit set, `dw_pcie_setup_atu` polls it exactly 5 times, busy-waits
`udelay(1000)` (≈1 ms) after each failed poll (5000 µs total), returns the
timeout error -1, and the region registers end up holding exactly the
base/limit/target/control values already written — the model performs no
state change during the poll loop, so no side effect beyond those writes
occurs. -/
theorem C2_setup_atu_timeout (env : Nat → Nat) (ty cpuAddr pciAddr size : Nat)
    (h : ∀ k, (env k).testBit 31 = false) :
    (dw_pcie_setup_atu env ty cpuAddr pciAddr size).ret = -1 ∧
    (dw_pcie_setup_atu env ty cpuAddr pciAddr size).polls = 5 ∧
    (dw_pcie_setup_atu env ty cpuAddr pciAddr size).delayUs = 5000 ∧
    (dw_pcie_setup_atu env ty cpuAddr pciAddr size).regs =
      atuProgram ty cpuAddr pciAddr size := by
  have hn : atuPollEnable env 5 0 = none := atuPollEnable_eq_none h 5 0
  simp [dw_pcie_setup_atu, hn]

/-- Witness for C2 with hardware that never reports the enable bit. -/
theorem C2_setup_atu_timeout_witness :
    (∀ k, ((fun _ => 0 : Nat → Nat) k).testBit 31 = false) ∧
    ((dw_pcie_setup_atu (fun _ => 0) 4 0xf3000000 0 0x100000).ret = -1 ∧
      (dw_pcie_setup_atu (fun _ => 0) 4 0xf3000000 0 0x100000).polls = 5 ∧
      (dw_pcie_setup_atu (fun _ => 0) 4 0xf3000000 0 0x100000).delayUs = 5000 ∧
      (dw_pcie_setup_atu (fun _ => 0) 4 0xf3000000 0 0x100000).regs =
        atuProgram 4 0xf3000000 0 0x100000) :=
  ⟨fun _ => Nat.zero_testBit 31,
    C2_setup_atu_timeout (fun _ => 0) 4 0xf3000000 0 0x100000 (fun _ => Nat.zero_testBit 31)⟩


/-! ## Claim C3 -/

/-- Claim C3, amended: If the initial swing-region reprogramming to config
type times out, `pcie_config_read32` performs no raw config-space access and
returns the sentinel `0xFFFFFFFF`, and `pcie_config_write32` performs no raw
access and skips the write (the device config space is untouched). The
read's failure is distinguishable only as the sentinel value; the write —
a `void` C function — reports nothing to its caller (see the
counterexample), the failure is only logged. -/
theorem C3_cfg_access_timeout (envr envw : Nat → Nat → Nat) (wsem : Nat → Nat → Nat)
    (bar_phys offset value : Nat) (restore_memory : Bool) (m : Mach)
    (hr : ∀ k, (envr 0 k).testBit 31 = false)
    (hw : ∀ k, (envw 0 k).testBit 31 = false) :
    (pcie_config_read32 envr bar_phys offset restore_memory m).val = 0xFFFFFFFF ∧
    (pcie_config_read32 envr bar_phys offset restore_memory m).acc = [] ∧
    (pcie_config_read32 envr bar_phys offset restore_memory m).m.cfg = m.cfg ∧
    (pcie_config_write32 wsem envw bar_phys offset value restore_memory m).acc = [] ∧
    (pcie_config_write32 wsem envw bar_phys offset value restore_memory m).m.cfg = m.cfg := by
  rw [cfg_read32_fail hr, cfg_write32_fail hw]
  exact ⟨rfl, rfl, rfl, rfl, rfl⟩

/-- Witness for C3: concrete never-enabling oracles. -/
theorem C3_cfg_access_timeout_witness :
    (∀ k, ((fun _ _ => 0 : Nat → Nat → Nat) 0 k).testBit 31 = false) ∧
    ((pcie_config_read32 (fun _ _ => 0) 0 0x10 false mach0).val = 0xFFFFFFFF ∧
      (pcie_config_read32 (fun _ _ => 0) 0 0x10 false mach0).acc = [] ∧
      (pcie_config_read32 (fun _ _ => 0) 0 0x10 false mach0).m.cfg = mach0.cfg ∧
      (pcie_config_write32 (fun _ v => v) (fun _ _ => 0) 0 0x10 0xAB false mach0).acc = [] ∧
      (pcie_config_write32 (fun _ v => v) (fun _ _ => 0) 0 0x10 0xAB false mach0).m.cfg =
        mach0.cfg) :=
  ⟨fun _ => Nat.zero_testBit 31,
    C3_cfg_access_timeout (fun _ _ => 0) (fun _ _ => 0) (fun _ v => v) 0 0x10 0xAB false mach0
      (fun _ => Nat.zero_testBit 31) (fun _ => Nat.zero_testBit 31)⟩

/-- Counterexample to claim C3: The claim also says "in both cases the failure is
reported to the caller as a failure rather than a successful no-op", but
`pcie_config_write32` is a `void` C function: on a swing-region timeout it
skips the raw write (empty access trace) yet hands the caller exactly the
same (empty) return value as a run in which the write really happened — the
caller cannot observe the failure. -/
theorem C3_counterexample :
    (pcie_config_write32 (fun _ v => v) (fun _ _ => 0) 0 4 0xAB false mach0).acc = [] ∧
    (pcie_config_write32 (fun _ v => v) (fun _ _ => 2 ^ 31) 0 4 0xAB false mach0).acc =
      [CfgAcc.wr 4 0xAB] ∧
    (pcie_config_write32 (fun _ v => v) (fun _ _ => 0) 0 4 0xAB false mach0).ret =
      (pcie_config_write32 (fun _ v => v) (fun _ _ => 2 ^ 31) 0 4 0xAB false mach0).ret := by
  refine ⟨?_, ?_, rfl⟩
  · have h : ∀ k, ((fun _ _ => (0 : Nat) : Nat → Nat → Nat) 0 k).testBit 31 = false :=
      fun _ => Nat.zero_testBit 31
    rw [@cfg_write32_fail (fun _ _ => 0) h (fun _ v => v) 0 4 0xAB false mach0]
  · have h2 : ((fun _ _ => (2 : Nat) ^ 31 : Nat → Nat → Nat) 0 0).testBit 31 = true :=
      Nat.testBit_two_pow_self
    rw [@cfg_write32_ok (fun _ _ => 2 ^ 31) h2 (fun _ v => v) 0 4 0xAB false mach0]

/-! ## Bit-arithmetic helpers for the command register -/

theorem and_two_eq_zero_iff (x : Nat) : x &&& 2 = 0 ↔ x.testBit 1 = false := by
  rw [show (2 : Nat) = 2 ^ 1 from rfl, Nat.and_two_pow]
  cases hb : x.testBit 1 <;> simp

theorem cmd_check_iff (x : Nat) : (x % 2 ^ 16 &&& 2 = 0) ↔ (x.testBit 1 = false) := by
  rw [and_two_eq_zero_iff, Nat.testBit_mod_two_pow]
  simp

theorem enableCmdWord_bit0 (v : Nat) : (enableCmdWord v).testBit 0 = true := by
  have h1 : Nat.testBit 1 0 = true := by decide
  have hm : Nat.testBit 64511 0 = true := by decide
  simp [enableCmdWord, Nat.testBit_or, Nat.testBit_and, Nat.testBit_shiftLeft, h1, hm]

theorem enableCmdWord_bit1 (v : Nat) : (enableCmdWord v).testBit 1 = true := by
  have h2 : Nat.testBit 2 1 = true := by decide
  have hm : Nat.testBit 64511 1 = true := by decide
  simp [enableCmdWord, Nat.testBit_or, Nat.testBit_and, Nat.testBit_shiftLeft, h2, hm]

theorem enableCmdWord_bit2 (v : Nat) : (enableCmdWord v).testBit 2 = true := by
  have h4 : Nat.testBit 4 2 = true := by decide
  have hm : Nat.testBit 64511 2 = true := by decide
  simp [enableCmdWord, Nat.testBit_or, Nat.testBit_and, Nat.testBit_shiftLeft, h4, hm]

theorem enableCmdWord_bit10 (v : Nat) : (enableCmdWord v).testBit 10 = false := by
  have hm : Nat.testBit 64511 10 = false := by decide
  simp [enableCmdWord, Nat.testBit_or, Nat.testBit_and, Nat.testBit_shiftLeft, hm]

theorem enableCmdWord_high (v : Nat) :
    enableCmdWord v / 2 ^ 16 = v / 2 ^ 16 % 2 ^ 16 := by
  have hlo : (((v % 2 ^ 16 ||| 2) ||| 4) ||| 1) &&& 0xFBFF < 2 ^ 16 :=
    lt_of_le_of_lt Nat.and_le_right (by norm_num)
  rw [enableCmdWord, Nat.shiftLeft_eq, mul_comm, ← Nat.mul_add_lt_is_or hlo,
    Nat.mul_add_div (by norm_num), Nat.div_eq_of_lt hlo, Nat.add_zero]

/-! ## Claim C9 -/

/-- Claim C9: `pcie_enable_device` reads the 32-bit command/status word at
offset 0x04, sets memory-space-enable (bit 1), bus-master-enable (bit 2)
and I/O-space-enable (bit 0), clears interrupt-disable (bit 10), writes the
word back with the original status half-word preserved in the upper 16
bits, reads the command register back, and returns failure exactly when the
read-back memory-space-enable bit is not set. Stated for hardware whose
swing-region reprogramming always succeeds (`hE`); the read-back value is
whatever the device latched for the written word (`wsem`). -/
theorem C9_enable_device (wsem : Nat → Nat → Nat) (E : Nat → Nat → Nat)
    (bar_phys : Nat) (m : Mach) (hE : ∀ c k, (E c k).testBit 31 = true) :
    (pcie_enable_device wsem E bar_phys m).2.2 =
      [CfgAcc.rd 0x04 (m.cfg 0x04), CfgAcc.wr 0x04 (enableCmdWord (m.cfg 0x04)),
        CfgAcc.rd 0x04 (wsem 0x04 (enableCmdWord (m.cfg 0x04)))] ∧
    (enableCmdWord (m.cfg 0x04)).testBit 0 = true ∧
    (enableCmdWord (m.cfg 0x04)).testBit 1 = true ∧
    (enableCmdWord (m.cfg 0x04)).testBit 2 = true ∧
    (enableCmdWord (m.cfg 0x04)).testBit 10 = false ∧
    enableCmdWord (m.cfg 0x04) / 2 ^ 16 = m.cfg 0x04 / 2 ^ 16 % 2 ^ 16 ∧
    ((pcie_enable_device wsem E bar_phys m).1 = -1 ↔
      (wsem 0x04 (enableCmdWord (m.cfg 0x04))).testBit 1 = false) := by
  refine ⟨?_, enableCmdWord_bit0 _, enableCmdWord_bit1 _, enableCmdWord_bit2 _,
    enableCmdWord_bit10 _, enableCmdWord_high _, ?_⟩
  · simp [pcie_enable_device, @cfg_read32_ok E (hE 0 0),
      @cfg_write32_ok (fun i => E (1 + i)) (hE 1 0) wsem,
      @cfg_read32_ok (fun i => E (2 + i)) (hE 2 0), Function.update_same]
  · simp only [pcie_enable_device, @cfg_read32_ok E (hE 0 0),
      @cfg_write32_ok (fun i => E (1 + i)) (hE 1 0) wsem,
      @cfg_read32_ok (fun i => E (2 + i)) (hE 2 0)]
    simp only [Bool.false_eq_true, false_and, if_neg, ite_false, Function.update_same]
    rw [← cmd_check_iff]
    by_cases hc : wsem 0x04 (enableCmdWord (m.cfg 0x04)) % 2 ^ 16 &&& 2 = 0 <;>
      simp [hc]

/-- Witness for C9: identity device latch, always-enabling swing hardware,
all-zero config space. -/
theorem C9_enable_device_witness :
    (∀ c k, ((fun _ _ => (2 : Nat) ^ 31 : Nat → Nat → Nat) c k).testBit 31 = true) ∧
    ((pcie_enable_device (fun _ v => v) (fun _ _ => 2 ^ 31) 0x40000000 mach0).2.2 =
        [CfgAcc.rd 0x04 (mach0.cfg 0x04), CfgAcc.wr 0x04 (enableCmdWord (mach0.cfg 0x04)),
          CfgAcc.rd 0x04 (enableCmdWord (mach0.cfg 0x04))] ∧
      (enableCmdWord (mach0.cfg 0x04)).testBit 0 = true ∧
      (enableCmdWord (mach0.cfg 0x04)).testBit 1 = true ∧
      (enableCmdWord (mach0.cfg 0x04)).testBit 2 = true ∧
      (enableCmdWord (mach0.cfg 0x04)).testBit 10 = false ∧
      enableCmdWord (mach0.cfg 0x04) / 2 ^ 16 = mach0.cfg 0x04 / 2 ^ 16 % 2 ^ 16 ∧
      ((pcie_enable_device (fun _ v => v) (fun _ _ => 2 ^ 31) 0x40000000 mach0).1 = -1 ↔
        (enableCmdWord (mach0.cfg 0x04)).testBit 1 = false)) :=
  ⟨fun _ _ => Nat.testBit_two_pow_self,
    C9_enable_device (fun _ v => v) (fun _ _ => 2 ^ 31) 0x40000000 mach0
      (fun _ _ => Nat.testBit_two_pow_self)⟩

/-! ## Claim C10 -/

/-- Evaluation of one `pcie_get_bar_info` probe under always-succeeding
swing-region reprogramming: the returned address and size as functions of
the original BAR value `m.cfg off` and the sizing readback
`wsem off 0xFFFFFFFF`, the final config space (original BAR value passed
back through the device latch, everything else untouched), and the probe's
final raw write being the restore of the original value. -/
theorem bar_info_run (wsem : Nat → Nat → Nat) (E : Nat → Nat → Nat)
    (bar_num : Nat) (m : Mach) (hE : ∀ c k, (E c k).testBit 31 = true) :
    (pcie_get_bar_info wsem E bar_num m).barAddr =
      (if wsem (0x10 + bar_num * 4) 0xFFFFFFFF &&& 0x1 ≠ 0 then
        m.cfg (0x10 + bar_num * 4) &&& 0xFFFFFFFC
      else if m.cfg (0x10 + bar_num * 4) &&& 0x6 = 0x4 then
        (m.cfg (0x10 + bar_num * 4) &&& 0xFFFFFFF0) |||
          m.cfg (0x10 + bar_num * 4 + 4) <<< 32
      else m.cfg (0x10 + bar_num * 4) &&& 0xFFFFFFF0) ∧
    (pcie_get_bar_info wsem E bar_num m).barSize =
      (if wsem (0x10 + bar_num * 4) 0xFFFFFFFF &&& 0x1 ≠ 0 then
        (2 ^ 32 - 1 - (wsem (0x10 + bar_num * 4) 0xFFFFFFFF &&& 0xFFFFFFFC) + 1) % 2 ^ 32
      else
        (2 ^ 32 - 1 - (wsem (0x10 + bar_num * 4) 0xFFFFFFFF &&& 0xFFFFFFF0) + 1) % 2 ^ 32) ∧
    (pcie_get_bar_info wsem E bar_num m).m.cfg =
      Function.update m.cfg (0x10 + bar_num * 4)
        (wsem (0x10 + bar_num * 4) (m.cfg (0x10 + bar_num * 4))) ∧
    lastWrite (pcie_get_bar_info wsem E bar_num m).acc =
      some (CfgAcc.wr (0x10 + bar_num * 4) (m.cfg (0x10 + bar_num * 4))) := by
  have hne : 0x10 + bar_num * 4 + 4 ≠ 0x10 + bar_num * 4 := by omega
  refine ⟨?_, ?_, ?_, ?_⟩ <;>
  · simp only [pcie_get_bar_info, @cfg_read32_ok E (hE 0 0),
      @cfg_write32_ok (fun i => E (1 + i)) (hE 1 0) wsem,
      @cfg_read32_ok (fun i => E (2 + i)) (hE 2 0),
      @cfg_write32_ok (fun i => E (3 + i)) (hE 3 0) wsem,
      @cfg_read32_ok (fun i => E (4 + i)) (hE 4 0)]
    simp only [Bool.false_eq_true, false_and, ite_false, if_neg,
      Function.update_same, Function.update_idem, Function.update_noteq hne]
    by_cases hio : wsem (0x10 + bar_num * 4) 0xFFFFFFFF % 2 = 1 <;>
      by_cases h64 : m.cfg (0x10 + bar_num * 4) &&& 0x6 = 0x4 <;>
      simp [hio, h64, lastWrite, List.find?, CfgAcc.isWr, Function.update_same,
        Function.update_noteq hne]

/-- Claim C10: `pcie_get_bar_info` restores the original BAR value as the
final raw write of its probe regardless of outcome (I/O, memory, 32- or
64-bit branch), computes the size as `~(readback & type-mask) + 1` in
uint32 with mask `0xFFFFFFFC` for I/O BARs and `0xFFFFFFF0` for memory
BARs, and is idempotent: probing again (oracle `E2` for the second call)
yields the same address and size and leaves the BAR register at its
pre-probe value. Hypotheses: the swing reprogramming always succeeds, and
the resident BAR value is a fixed point of the device's write latch
(`him`) — true of any BAR whose current content was itself stored through
that latch. -/
theorem C10_bar_info (wsem E E2 : Nat → Nat → Nat) (bar_num : Nat) (m : Mach)
    (hE : ∀ c k, (E c k).testBit 31 = true) (hE2 : ∀ c k, (E2 c k).testBit 31 = true)
    (him : wsem (0x10 + bar_num * 4) (m.cfg (0x10 + bar_num * 4)) =
      m.cfg (0x10 + bar_num * 4)) :
    lastWrite (pcie_get_bar_info wsem E bar_num m).acc =
      some (CfgAcc.wr (0x10 + bar_num * 4) (m.cfg (0x10 + bar_num * 4))) ∧
    (pcie_get_bar_info wsem E bar_num m).barSize =
      (if wsem (0x10 + bar_num * 4) 0xFFFFFFFF &&& 0x1 ≠ 0 then
        (2 ^ 32 - (wsem (0x10 + bar_num * 4) 0xFFFFFFFF &&& 0xFFFFFFFC)) % 2 ^ 32
      else (2 ^ 32 - (wsem (0x10 + bar_num * 4) 0xFFFFFFFF &&& 0xFFFFFFF0)) % 2 ^ 32) ∧
    (pcie_get_bar_info wsem E bar_num m).m.cfg (0x10 + bar_num * 4) =
      m.cfg (0x10 + bar_num * 4) ∧
    (pcie_get_bar_info wsem E2 bar_num (pcie_get_bar_info wsem E bar_num m).m).barAddr =
      (pcie_get_bar_info wsem E bar_num m).barAddr ∧
    (pcie_get_bar_info wsem E2 bar_num (pcie_get_bar_info wsem E bar_num m).m).barSize =
      (pcie_get_bar_info wsem E bar_num m).barSize ∧
    (pcie_get_bar_info wsem E2 bar_num (pcie_get_bar_info wsem E bar_num m).m).m.cfg
      (0x10 + bar_num * 4) = m.cfg (0x10 + bar_num * 4) := by
  obtain ⟨ha1, hs1, hc1, hw1⟩ := bar_info_run wsem E bar_num m hE
  have hcfg1 : (pcie_get_bar_info wsem E bar_num m).m.cfg = m.cfg := by
    rw [hc1, him, Function.update_eq_self]
  obtain ⟨ha2, hs2, hc2, hw2⟩ :=
    bar_info_run wsem E2 bar_num (pcie_get_bar_info wsem E bar_num m).m hE2
  rw [hcfg1] at ha2 hc2
  have hx1 : wsem (0x10 + bar_num * 4) 0xFFFFFFFF &&& 0xFFFFFFFC ≤ 0xFFFFFFFC :=
    Nat.and_le_right
  have hx2 : wsem (0x10 + bar_num * 4) 0xFFFFFFFF &&& 0xFFFFFFF0 ≤ 0xFFFFFFF0 :=
    Nat.and_le_right
  have e1 : 2 ^ 32 - 1 - (wsem (0x10 + bar_num * 4) 0xFFFFFFFF &&& 0xFFFFFFFC) + 1 =
      2 ^ 32 - (wsem (0x10 + bar_num * 4) 0xFFFFFFFF &&& 0xFFFFFFFC) := by omega
  have e2 : 2 ^ 32 - 1 - (wsem (0x10 + bar_num * 4) 0xFFFFFFFF &&& 0xFFFFFFF0) + 1 =
      2 ^ 32 - (wsem (0x10 + bar_num * 4) 0xFFFFFFFF &&& 0xFFFFFFF0) := by omega
  refine ⟨hw1, ?_, ?_, ha2.trans ha1.symm, hs2.trans hs1.symm, ?_⟩
  · rw [hs1, e1, e2]
  · rw [hcfg1]
  · rw [hc2, Function.update_same]
    exact him

/-- Witness for C10: identity device latch (plain-register BAR), zeroed
config space, bar 0. -/
theorem C10_bar_info_witness :
    (∀ c k, ((fun _ _ => (2 : Nat) ^ 31 : Nat → Nat → Nat) c k).testBit 31 = true) ∧
    ((fun _ v => v : Nat → Nat → Nat) (0x10 + 0 * 4) (mach0.cfg (0x10 + 0 * 4)) =
      mach0.cfg (0x10 + 0 * 4)) ∧
    (lastWrite (pcie_get_bar_info (fun _ v => v) (fun _ _ => 2 ^ 31) 0 mach0).acc =
      some (CfgAcc.wr (0x10 + 0 * 4) (mach0.cfg (0x10 + 0 * 4))) ∧
    (pcie_get_bar_info (fun _ v => v) (fun _ _ => 2 ^ 31) 0 mach0).barSize =
      (if (fun _ v => v : Nat → Nat → Nat) (0x10 + 0 * 4) 0xFFFFFFFF &&& 0x1 ≠ 0 then
        (2 ^ 32 - ((fun _ v => v : Nat → Nat → Nat) (0x10 + 0 * 4) 0xFFFFFFFF &&&
          0xFFFFFFFC)) % 2 ^ 32
      else (2 ^ 32 - ((fun _ v => v : Nat → Nat → Nat) (0x10 + 0 * 4) 0xFFFFFFFF &&&
        0xFFFFFFF0)) % 2 ^ 32) ∧
    (pcie_get_bar_info (fun _ v => v) (fun _ _ => 2 ^ 31) 0 mach0).m.cfg (0x10 + 0 * 4) =
      mach0.cfg (0x10 + 0 * 4) ∧
    (pcie_get_bar_info (fun _ v => v) (fun _ _ => 2 ^ 31) 0
        (pcie_get_bar_info (fun _ v => v) (fun _ _ => 2 ^ 31) 0 mach0).m).barAddr =
      (pcie_get_bar_info (fun _ v => v) (fun _ _ => 2 ^ 31) 0 mach0).barAddr ∧
    (pcie_get_bar_info (fun _ v => v) (fun _ _ => 2 ^ 31) 0
        (pcie_get_bar_info (fun _ v => v) (fun _ _ => 2 ^ 31) 0 mach0).m).barSize =
      (pcie_get_bar_info (fun _ v => v) (fun _ _ => 2 ^ 31) 0 mach0).barSize ∧
    (pcie_get_bar_info (fun _ v => v) (fun _ _ => 2 ^ 31) 0
        (pcie_get_bar_info (fun _ v => v) (fun _ _ => 2 ^ 31) 0 mach0).m).m.cfg
      (0x10 + 0 * 4) = mach0.cfg (0x10 + 0 * 4)) :=
  ⟨fun _ _ => Nat.testBit_two_pow_self, rfl,
    C10_bar_info (fun _ v => v) (fun _ _ => 2 ^ 31) (fun _ _ => 2 ^ 31) 0 mach0
      (fun _ _ => Nat.testBit_two_pow_self) (fun _ _ => Nat.testBit_two_pow_self) rfl⟩

/-! ## Helper lemmas for the descriptor-ring driver -/

theorem descPoll_own {env : Nat → Nat} (h : ∀ k, (env k).testBit 31 = true)
    (fuel : Nat) : ∀ (k cur : Nat), cur.testBit 31 = true →
      (descPoll env fuel k cur).1.testBit 31 = true ∧
      (descPoll env fuel k cur).2 = fuel := by
  induction fuel with
  | zero => intro k cur hc; exact ⟨hc, rfl⟩
  | succ n ih =>
    intro k cur hc
    obtain ⟨h1, h2⟩ := ih (k + 1) (env k) (h k)
    rw [descPoll]
    simp [h k, h1, h2]

theorem ite_gt_eq_min (p c : Nat) : (if p > c then c else p) = min p c := by
  rw [Nat.min_def]
  split <;> split <;> omega

theorem pktLenOf_eq_min (st : Nat) :
    pktLenOf st = min (((st &&& 0x3FFF) + 2 ^ 32 - 4) % 2 ^ 32) 2048 := by
  simp only [pktLenOf]
  exact ite_gt_eq_min _ 2048

/-- Fields of the re-armed RX descriptor. -/
theorem rxReinit_fields (s : RtlState) :
    ((rxReinit s).rxRing s.rxIdx).status.testBit 31 = true ∧
    ((rxReinit s).rxRing s.rxIdx).status &&& 0x3FFF = 2048 ∧
    (((rxReinit s).rxRing s.rxIdx).status.testBit 30 = true ↔ s.rxIdx = 4 - 1) ∧
    (rxReinit s).rxIdx = (s.rxIdx + 1) % 4 := by
  refine ⟨?_, ?_, ?_, ?_⟩ <;>
    by_cases h3 : s.rxIdx = 4 - 1 <;>
    simp [rxReinit, h3, Function.update_same] <;>
    decide

theorem txPosted_bit31 (len : Nat) : (txPosted len).testBit 31 = true := by
  rw [txPosted, Nat.testBit_or,
    show ((0x80000000 ||| 0x20000000 ||| 0x10000000 : Nat)).testBit 31 = true from by decide,
    Bool.true_or]

theorem txPosted_bit29 (len : Nat) : (txPosted len).testBit 29 = true := by
  rw [txPosted, Nat.testBit_or,
    show ((0x80000000 ||| 0x20000000 ||| 0x10000000 : Nat)).testBit 29 = true from by decide,
    Bool.true_or]

theorem txPosted_bit28 (len : Nat) : (txPosted len).testBit 28 = true := by
  rw [txPosted, Nat.testBit_or,
    show ((0x80000000 ||| 0x20000000 ||| 0x10000000 : Nat)).testBit 28 = true from by decide,
    Bool.true_or]

theorem txPad_le (len : Nat) (h : len ≤ 2048) : txPad len ≤ 2048 := by
  simp only [txPad]
  split <;> omega

theorem txPosted_lenField (len : Nat) (h : len ≤ 2048) :
    txPosted len &&& 0x3FFF = txPad len := by
  have hpad := txPad_le len h
  rw [txPosted,
    show (0x80000000 ||| 0x20000000 ||| 0x10000000 : Nat) = 2 ^ 28 * 11 from by decide,
    ← Nat.mul_add_lt_is_or (by omega : txPad len < 2 ^ 28) 11,
    show (0x3FFF : Nat) = 2 ^ 14 - 1 from by decide,
    Nat.and_pow_two_sub_one_eq_mod]
  have h14 : (2 : Nat) ^ 14 = 16384 := by norm_num
  have h28 : (2 : Nat) ^ 28 * 11 = 2952790016 := by norm_num
  rw [h14, h28]
  omega

/-! ## Claim C4 -/

/-- Claim C4: After every return of `rtl8125_recv_packet` in which ownership
of the current slot was obtained (successful copy, error-flagged, or
discard — i.e. the polled status has the ownership bit clear), that slot's
status has the ownership bit set back to device-owned with the full buffer
capacity (2048) in the length field, the end-of-ring flag is set on the
slot exactly when it is the last slot (index `NUM_RX_DESC - 1 = 3`), and
the receive ring index has advanced by exactly one modulo the ring
length. -/
theorem C4_recv_rearm (env : Nat → Nat) (buffer : Nat → Nat) (timeout_ms : Nat)
    (s : RtlState) (hOwn : ((rxPoll env timeout_ms s).1).testBit 31 = false) :
    ((rtl8125_recv_packet env buffer timeout_ms s).s.rxRing s.rxIdx).status.testBit 31 =
      true ∧
    ((rtl8125_recv_packet env buffer timeout_ms s).s.rxRing s.rxIdx).status &&& 0x3FFF =
      2048 ∧
    (((rtl8125_recv_packet env buffer timeout_ms s).s.rxRing s.rxIdx).status.testBit 30 =
      true ↔ s.rxIdx = 4 - 1) ∧
    (rtl8125_recv_packet env buffer timeout_ms s).s.rxIdx = (s.rxIdx + 1) % 4 := by
  have hs' : (rtl8125_recv_packet env buffer timeout_ms s).s = rxReinit s := by
    by_cases herr : ((rxPoll env timeout_ms s).1).testBit 21 <;>
      simp [rtl8125_recv_packet, hOwn, herr]
  rw [hs']
  exact rxReinit_fields s

/-- Witness for C4: first poll reports a host-owned, error-free frame of 64
bytes. -/
theorem C4_recv_rearm_witness :
    (((rxPoll (fun _ => 0x40) 1 rtlInitState).1).testBit 31 = false) ∧
    (((rtl8125_recv_packet (fun _ => 0x40) (fun _ => 0) 1 rtlInitState).s.rxRing
        rtlInitState.rxIdx).status.testBit 31 = true ∧
      ((rtl8125_recv_packet (fun _ => 0x40) (fun _ => 0) 1 rtlInitState).s.rxRing
        rtlInitState.rxIdx).status &&& 0x3FFF = 2048 ∧
      (((rtl8125_recv_packet (fun _ => 0x40) (fun _ => 0) 1 rtlInitState).s.rxRing
        rtlInitState.rxIdx).status.testBit 30 = true ↔ rtlInitState.rxIdx = 4 - 1) ∧
      (rtl8125_recv_packet (fun _ => 0x40) (fun _ => 0) 1 rtlInitState).s.rxIdx =
        (rtlInitState.rxIdx + 1) % 4) :=
  ⟨by decide, C4_recv_rearm (fun _ => 0x40) (fun _ => 0) 1 rtlInitState (by decide)⟩

/-! ## Claim C6 -/

/-- Claim C6, amended: If the current receive slot's ownership bit never
clears, `rtl8125_recv_packet` returns the no-packet error -1 and leaves all
ring state unchanged — the slot's descriptor fields, the receive ring
index, the caller's buffer, and the output length are not modified.
Provided the poll-count computation `timeout_ms * 100` does not overflow
uint32, the accumulated busy-wait is at least the requested
`timeout_ms` milliseconds, so the error returns only at or after the
requested timeout; for `timeout_ms ≥ 42949673` the uint32 multiplication
wraps and the call returns early (see the counterexample). -/
theorem C6_recv_timeout (env : Nat → Nat) (buffer : Nat → Nat) (timeout_ms : Nat)
    (s : RtlState) (hNever : ∀ k, (env k).testBit 31 = true)
    (hCur : ((s.rxRing s.rxIdx).status).testBit 31 = true) :
    (rtl8125_recv_packet env buffer timeout_ms s).ret = -1 ∧
    (rtl8125_recv_packet env buffer timeout_ms s).s = s ∧
    (rtl8125_recv_packet env buffer timeout_ms s).buf = buffer ∧
    (rtl8125_recv_packet env buffer timeout_ms s).lenOut = none ∧
    (timeout_ms * 100 < 2 ^ 32 →
      1000 * timeout_ms ≤ (rtl8125_recv_packet env buffer timeout_ms s).delayUs) := by
  obtain ⟨h1, h2⟩ := descPoll_own hNever (timeout_ms * 100 % 2 ^ 32) 0
    ((s.rxRing s.rxIdx).status) hCur
  have hp1 : ((rxPoll env timeout_ms s).1).testBit 31 = true := h1
  have hp2 : (rxPoll env timeout_ms s).2 = timeout_ms * 100 % 2 ^ 32 := h2
  refine ⟨?_, ?_, ?_, ?_, fun hov => ?_⟩ <;>
    simp [rtl8125_recv_packet, hp1, hp2]
  have hov2 : timeout_ms * 100 < 4294967296 := hov
  rw [Nat.mod_eq_of_lt hov2]
  omega

/-- Witness for C6 at a 1 ms timeout (no overflow). -/
theorem C6_recv_timeout_witness :
    (∀ k, ((fun _ => 0x80000800 : Nat → Nat) k).testBit 31 = true) ∧
    (((rtlInitState.rxRing rtlInitState.rxIdx).status).testBit 31 = true) ∧
    ((rtl8125_recv_packet (fun _ => 0x80000800) (fun _ => 0) 1 rtlInitState).ret = -1 ∧
      (rtl8125_recv_packet (fun _ => 0x80000800) (fun _ => 0) 1 rtlInitState).s =
        rtlInitState ∧
      (rtl8125_recv_packet (fun _ => 0x80000800) (fun _ => 0) 1 rtlInitState).buf =
        (fun _ => 0) ∧
      (rtl8125_recv_packet (fun _ => 0x80000800) (fun _ => 0) 1 rtlInitState).lenOut =
        none ∧
      (1 * 100 < 2 ^ 32 →
        1000 * 1 ≤
          (rtl8125_recv_packet (fun _ => 0x80000800) (fun _ => 0) 1 rtlInitState).delayUs)) :=
  ⟨fun _ => (by decide : (0x80000800 : Nat).testBit 31 = true), by decide,
    C6_recv_timeout (fun _ => 0x80000800) (fun _ => 0) 1 rtlInitState
      (fun _ => (by decide : (0x80000800 : Nat).testBit 31 = true)) (by decide)⟩

/-- Counterexample to claim C6: The claim as stated promises the no-packet error
"only at or after the requested timeout has elapsed" for every requested
timeout. For `timeout_ms = 42949673` the uint32 poll-count
`timeout_ms * 100` wraps to 4, so the driver busy-waits only 40 µs —
far less than the requested ≈12 hours — before returning -1. -/
theorem C6_counterexample :
    (rtl8125_recv_packet (fun _ => 0x80000800) (fun _ => 0) 42949673 rtlInitState).ret =
      -1 ∧
    (rtl8125_recv_packet (fun _ => 0x80000800) (fun _ => 0) 42949673 rtlInitState).delayUs =
      40 ∧
    (rtl8125_recv_packet (fun _ => 0x80000800) (fun _ => 0) 42949673
      rtlInitState).delayUs < 1000 * 42949673 := by
  refine ⟨?_, ?_, ?_⟩ <;> decide

/-! ## Claim C5 -/

/-- Claim C5: `rtl8125_send_packet` with length greater than the transmit
buffer capacity (2048) returns the error -1 before any hardware or ring
interaction (state unchanged, no hardware events, no delay); with length
within capacity it copies the `len` payload bytes into the current slot's
buffer, zero-pads up to 60 bytes when `len < 60`, posts the slot's status
as device-owned (bit 31) with start-of-packet (bit 29), end-of-packet
(bit 28) and the padded length in the low 14 bits, rings the TX doorbell,
and — when the ownership poll observes the bit clear — returns 0 with the
transmit ring index advanced by one modulo the ring length. -/
theorem C5_send_packet (env : Nat → Nat) (data : Nat → Nat) (len : Nat)
    (s : RtlState) :
    (len > 2048 →
      rtl8125_send_packet env data len s = ⟨-1, s, [], 0⟩) ∧
    (len ≤ 2048 →
      (∀ i, i < len →
        (rtl8125_send_packet env data len s).s.txBufs s.txIdx i = data i % 256) ∧
      (∀ i, len ≤ i → i < txPad len →
        (rtl8125_send_packet env data len s).s.txBufs s.txIdx i = 0) ∧
      (rtl8125_send_packet env data len s).evs =
        [RtlEv.descStatus s.txIdx (txPosted len), RtlEv.txPollWrite 1] ∧
      (txPosted len).testBit 31 = true ∧
      (txPosted len).testBit 29 = true ∧
      (txPosted len).testBit 28 = true ∧
      txPosted len &&& 0x3FFF = txPad len ∧
      (((descPoll env 10000 0 (txPosted len)).1).testBit 31 = false →
        (rtl8125_send_packet env data len s).ret = 0 ∧
        (rtl8125_send_packet env data len s).s.txIdx = (s.txIdx + 1) % 4)) := by
  constructor
  · intro hlen
    simp [rtl8125_send_packet, hlen]
  · intro hlen
    have hnot : ¬ len > 2048 := by omega
    have hbufs : (rtl8125_send_packet env data len s).s.txBufs s.txIdx =
        txFill data len (s.txBufs s.txIdx) := by
      by_cases hp : ((descPoll env 10000 0 (txPosted len)).1).testBit 31 <;>
        simp [rtl8125_send_packet, hnot, hp, Function.update_same]
    refine ⟨?_, ?_, ?_, txPosted_bit31 len, txPosted_bit29 len, txPosted_bit28 len,
      txPosted_lenField len hlen, fun hdone => ?_⟩
    · intro i hi
      rw [hbufs]
      simp [txFill, hi]
    · intro i hi1 hi2
      have hni : ¬ i < len := by omega
      rw [hbufs]
      simp [txFill, hni, hi2]
    · by_cases hp : ((descPoll env 10000 0 (txPosted len)).1).testBit 31 <;>
        simp [rtl8125_send_packet, hnot, hp]
    · constructor <;> simp [rtl8125_send_packet, hnot, hdone]

/-- Witness for C5: 3-byte payload into the freshly initialized ring with
hardware that completes at the first poll. -/
theorem C5_send_packet_witness :
    ((3 : Nat) ≤ 2048) ∧
    (((descPoll (fun _ => 0) 10000 0 (txPosted 3)).1).testBit 31 = false) ∧
    ((rtl8125_send_packet (fun _ => 0) (fun i => i) 3 rtlInitState).ret = 0 ∧
      (rtl8125_send_packet (fun _ => 0) (fun i => i) 3 rtlInitState).s.txIdx =
        (rtlInitState.txIdx + 1) % 4) :=
  ⟨by decide, by decide,
    ((C5_send_packet (fun _ => 0) (fun i => i) 3 rtlInitState).2
      (by decide)).2.2.2.2.2.2.2 (by decide)⟩

/-! ## Claim C7 -/

/-- Claim C7: On a successful (non-error-flagged) receive, the length stored
through `*len` equals the status word's low-14-bit length field minus the
4-byte frame-check-sequence (uint32 subtraction), clamped to the buffer
capacity 2048, and exactly that many bytes of the slot's receive buffer are
copied into the caller's buffer — the rest of the caller's buffer is left
as it was. -/
theorem C7_recv_length (env : Nat → Nat) (buffer : Nat → Nat) (timeout_ms : Nat)
    (s : RtlState) (hOwn : ((rxPoll env timeout_ms s).1).testBit 31 = false)
    (hErr : ((rxPoll env timeout_ms s).1).testBit 21 = false) :
    (rtl8125_recv_packet env buffer timeout_ms s).ret = 0 ∧
    (rtl8125_recv_packet env buffer timeout_ms s).lenOut =
      some (min ((((rxPoll env timeout_ms s).1 &&& 0x3FFF) + 2 ^ 32 - 4) % 2 ^ 32) 2048) ∧
    (∀ i, i < pktLenOf ((rxPoll env timeout_ms s).1) →
      (rtl8125_recv_packet env buffer timeout_ms s).buf i = s.rxBufs s.rxIdx i) ∧
    (∀ i, pktLenOf ((rxPoll env timeout_ms s).1) ≤ i →
      (rtl8125_recv_packet env buffer timeout_ms s).buf i = buffer i) := by
  have hout : rtl8125_recv_packet env buffer timeout_ms s =
      ⟨0, rxReinit s,
        fun i => if i < pktLenOf ((rxPoll env timeout_ms s).1)
          then s.rxBufs s.rxIdx i else buffer i,
        some (pktLenOf ((rxPoll env timeout_ms s).1)),
        10 * (rxPoll env timeout_ms s).2⟩ := by
    simp [rtl8125_recv_packet, hOwn, hErr]
  rw [hout]
  refine ⟨rfl, ?_, ?_, ?_⟩
  · rw [pktLenOf_eq_min]
  · intro i hi
    simp [hi]
  · intro i hi
    have hni : ¬ i < pktLenOf ((rxPoll env timeout_ms s).1) := by omega
    simp [hni]

/-- Witness for C7: status 0x40 (host-owned, no error, 64-byte frame). -/
theorem C7_recv_length_witness :
    (((rxPoll (fun _ => 0x40) 1 rtlInitState).1).testBit 31 = false) ∧
    (((rxPoll (fun _ => 0x40) 1 rtlInitState).1).testBit 21 = false) ∧
    ((rtl8125_recv_packet (fun _ => 0x40) (fun _ => 7) 1 rtlInitState).ret = 0 ∧
      (rtl8125_recv_packet (fun _ => 0x40) (fun _ => 7) 1 rtlInitState).lenOut =
        some (min ((((rxPoll (fun _ => 0x40) 1 rtlInitState).1 &&& 0x3FFF) + 2 ^ 32 - 4) %
          2 ^ 32) 2048) ∧
      (∀ i, i < pktLenOf ((rxPoll (fun _ => 0x40) 1 rtlInitState).1) →
        (rtl8125_recv_packet (fun _ => 0x40) (fun _ => 7) 1 rtlInitState).buf i =
          rtlInitState.rxBufs rtlInitState.rxIdx i) ∧
      (∀ i, pktLenOf ((rxPoll (fun _ => 0x40) 1 rtlInitState).1) ≤ i →
        (rtl8125_recv_packet (fun _ => 0x40) (fun _ => 7) 1 rtlInitState).buf i =
          (fun _ => 7 : Nat → Nat) i)) :=
  ⟨by decide, by decide,
    C7_recv_length (fun _ => 0x40) (fun _ => 7) 1 rtlInitState (by decide) (by decide)⟩

/-! ## Claim C8 -/

/-- Claim C8: When the received slot's status has the device error flag
(`RxRES`, bit 21) set, `rtl8125_recv_packet` skips payload extraction —
the caller's buffer is untouched and `*len` is never written — but still
re-arms the slot as device-owned and advances the ring index, and it does
not surface the error: it returns the same success code 0 as a normal
receive. -/
theorem C8_recv_device_error (env : Nat → Nat) (buffer : Nat → Nat)
    (timeout_ms : Nat) (s : RtlState)
    (hOwn : ((rxPoll env timeout_ms s).1).testBit 31 = false)
    (hErr : ((rxPoll env timeout_ms s).1).testBit 21 = true) :
    (rtl8125_recv_packet env buffer timeout_ms s).ret = 0 ∧
    (rtl8125_recv_packet env buffer timeout_ms s).lenOut = none ∧
    (rtl8125_recv_packet env buffer timeout_ms s).buf = buffer ∧
    ((rtl8125_recv_packet env buffer timeout_ms s).s.rxRing s.rxIdx).status.testBit 31 =
      true ∧
    (rtl8125_recv_packet env buffer timeout_ms s).s.rxIdx = (s.rxIdx + 1) % 4 := by
  have hout : rtl8125_recv_packet env buffer timeout_ms s =
      ⟨0, rxReinit s, buffer, none, 10 * (rxPoll env timeout_ms s).2⟩ := by
    simp [rtl8125_recv_packet, hOwn, hErr]
  rw [hout]
  obtain ⟨a, _, _, d⟩ := rxReinit_fields s
  exact ⟨rfl, rfl, rfl, a, d⟩

/-- Witness for C8: status 0x200040 (host-owned, `RxRES` error flag set). -/
theorem C8_recv_device_error_witness :
    (((rxPoll (fun _ => 0x200040) 1 rtlInitState).1).testBit 31 = false) ∧
    (((rxPoll (fun _ => 0x200040) 1 rtlInitState).1).testBit 21 = true) ∧
    ((rtl8125_recv_packet (fun _ => 0x200040) (fun _ => 7) 1 rtlInitState).ret = 0 ∧
      (rtl8125_recv_packet (fun _ => 0x200040) (fun _ => 7) 1 rtlInitState).lenOut = none ∧
      (rtl8125_recv_packet (fun _ => 0x200040) (fun _ => 7) 1 rtlInitState).buf =
        (fun _ => 7) ∧
      ((rtl8125_recv_packet (fun _ => 0x200040) (fun _ => 7) 1 rtlInitState).s.rxRing
        rtlInitState.rxIdx).status.testBit 31 = true ∧
      (rtl8125_recv_packet (fun _ => 0x200040) (fun _ => 7) 1 rtlInitState).s.rxIdx =
        (rtlInitState.rxIdx + 1) % 4) :=
  ⟨by decide, by decide,
    C8_recv_device_error (fun _ => 0x200040) (fun _ => 7) 1 rtlInitState
      (by decide) (by decide)⟩
